import Mathlib

/-!
Verification of the policy-compilation core of apigee-remote-service-envoy
(package `config`, file `env_spec_ext.go`), shallowly embedded in Lean.

Structures and functions mirror the Go source.  Parts of the repository that
are referenced by `env_spec_ext.go` but whose defining file is not available
(the YAML marshalling of `AuthenticationRequirement`, the `jwtAuthentications`
caches populated by the validator, and the `transform` template parser) are
modelled from the specification; each such definition says so in its doc
comment.
-/

set_option maxHeartbeats 1000000

namespace ApigeeConfig

/-- The wildcard path/method segment (`const wildcard = "*"` in the source). -/
def wildcard : String := "*"

/-- Modelled from the spec: the any-method token accepted in an `HTTPMatch`
method position (its defining constant is not under `src/`); the compiler
normalizes it to the wildcard method segment.  Its concrete spelling is
irrelevant to the theorems below. -/
def anyMethod : String := "ANY"

/-- Remote JWKS source: URL plus cache duration (`RemoteJWKS`). -/
structure RemoteJWKS where
  URL : String
  CacheDuration : Int
deriving DecidableEq, Repr, Inhabited

/-- `StringTransformation`: template + substitution pattern. -/
structure StringTransformation where
  Template : String
  Substitution : String
deriving DecidableEq, Repr, Inhabited

/-- The parameter-match target of an `APIOperationParameter`: header name,
query name, or JWT-claim reference. -/
inductive ParamMatch where
  | header (name : String)
  | query (name : String)
  | jwtClaim (requirement : String) (name : String)
deriving DecidableEq, Repr, Inhabited

/-- `APIOperationParameter`: a match target plus an optional transformation. -/
structure APIOperationParameter where
  Match : ParamMatch
  Transformation : StringTransformation
deriving DecidableEq, Repr, Inhabited

/-- `JWTAuthentication`: one JWT requirement definition. -/
structure JWTAuthentication where
  Name : String
  Issuer : String
  Audiences : List String
  JWKSSource : RemoteJWKS
  In : List APIOperationParameter
deriving DecidableEq, Repr, Inhabited

mutual
/-- `AuthenticationRequirement`: a `Disabled` flag plus the (possibly absent)
requirement variant carried by the node. -/
inductive AuthenticationRequirement where
  | mk (Disabled : Bool) (Requirements : Option AuthenticationRequirements)

/-- The `AuthenticationRequirements` interface of the source: a closed set of
three known variants, plus `other` standing for any further implementation of
the open Go interface (the source's type switch has a default path). -/
inductive AuthenticationRequirements where
  | jwt (j : JWTAuthentication)
  | anyOf (reqs : List AuthenticationRequirement)
  | allOf (reqs : List AuthenticationRequirement)
  | other (tag : String)
end

/-- The `Disabled` field of an `AuthenticationRequirement`. -/
def AuthenticationRequirement.Disabled : AuthenticationRequirement → Bool
  | .mk d _ => d

/-- The `Requirements` field of an `AuthenticationRequirement`. -/
def AuthenticationRequirement.Requirements :
    AuthenticationRequirement → Option AuthenticationRequirements
  | .mk _ r => r

mutual
/-- The recursive helper `isEmpty(auth AuthenticationRequirement)` of the
source: type-switch on the `Requirements` field, with the default path (no
known variant, including the nil case) returning true. -/
def isEmpty : AuthenticationRequirement → Bool
  | .mk _ none => true
  | .mk _ (some r) => isEmptyRequirements r

/-- The body of `isEmpty`'s type switch. -/
def isEmptyRequirements : AuthenticationRequirements → Bool
  | .jwt _ => false
  | .anyOf reqs => isEmptyList reqs
  | .allOf reqs => isEmptyList reqs
  | .other _ => true

/-- The child loop of `isEmpty`: false as soon as one child is non-empty. -/
def isEmptyList : List AuthenticationRequirement → Bool
  | [] => true
  | r :: rs => isEmpty r && isEmptyList rs
end

/-- `AuthenticationRequirement.IsEmpty`: not disabled and recursively empty. -/
def AuthenticationRequirement.IsEmpty (a : AuthenticationRequirement) : Bool :=
  !a.Disabled && isEmpty a

/-- `ConsumerAuthorization`: disabled flag plus parameter bindings. -/
structure ConsumerAuthorization where
  Disabled : Bool
  In : List APIOperationParameter
deriving DecidableEq, Repr, Inhabited

/-- `ConsumerAuthorization.isEmpty`. -/
def ConsumerAuthorization.isEmpty (c : ConsumerAuthorization) : Bool :=
  !c.Disabled && c.In.isEmpty

/-- `AddNameValue`: one add entry of a name/value transform. -/
structure AddNameValue where
  Name : String
  Value : String
  Overwrite : Bool
deriving DecidableEq, Repr, Inhabited

/-- `NameValueTransforms`: add-list and remove-list. -/
structure NameValueTransforms where
  Add : List AddNameValue
  Remove : List String
deriving DecidableEq, Repr, Inhabited

/-- `HTTPRequestTransforms`: header/query transforms plus a path transform. -/
structure HTTPRequestTransforms where
  HeaderTransforms : NameValueTransforms
  QueryTransforms : NameValueTransforms
  PathTransform : String
deriving DecidableEq, Repr, Inhabited

/-- `NameValueTransforms.isEmpty`. -/
def NameValueTransforms.isEmpty (u : NameValueTransforms) : Bool :=
  u.Add.isEmpty && u.Remove.isEmpty

/-- `HTTPRequestTransforms.isEmpty`. -/
def HTTPRequestTransforms.isEmpty (h : HTTPRequestTransforms) : Bool :=
  h.HeaderTransforms.isEmpty && h.QueryTransforms.isEmpty &&
    h.PathTransform.trim.isEmpty

/-- `HTTPMatch`: method plus path template. -/
structure HTTPMatch where
  PathTemplate : String
  Method : String
deriving DecidableEq, Repr, Inhabited

/-- `CorsPolicy`: literal allowed origins and origin regexes. -/
structure CorsPolicy where
  AllowOrigins : List String
  AllowOriginsRegexes : List String
deriving DecidableEq, Repr, Inhabited

/-- `APIOperation`: a named operation with matches and policy overrides. -/
structure APIOperation where
  Name : String
  HTTPMatches : List HTTPMatch
  Authentication : AuthenticationRequirement
  ConsumerAuthorization : ConsumerAuthorization
  HTTPRequestTransforms : HTTPRequestTransforms

/-- `APISpec`: one API of an environment specification. -/
structure APISpec where
  ID : String
  BasePath : String
  Authentication : AuthenticationRequirement
  ConsumerAuthorization : ConsumerAuthorization
  Operations : List APIOperation
  HTTPRequestTransforms : HTTPRequestTransforms
  Cors : CorsPolicy

/-- `EnvironmentSpec`: the root specification object. -/
structure EnvironmentSpec where
  ID : String
  APIs : List APISpec

mutual
/-- Modelled from the spec: during validation every `JWTRequirement` leaf
reachable from a requirement tree is collected, depth-first in tree-traversal
order, into the owner's flattened `jwtAuthentications` cache (the populating
validator code is not under `src/`). -/
def AuthenticationRequirement.jwtAuthentications :
    AuthenticationRequirement → List JWTAuthentication
  | .mk _ none => []
  | .mk _ (some r) => AuthenticationRequirements.jwtAuthentications r

/-- Depth-first leaf collection over one requirement variant. -/
def AuthenticationRequirements.jwtAuthentications :
    AuthenticationRequirements → List JWTAuthentication
  | .jwt j => [j]
  | .anyOf reqs => jwtAuthenticationsList reqs
  | .allOf reqs => jwtAuthenticationsList reqs
  | .other _ => []

/-- Depth-first leaf collection over a child list. -/
def jwtAuthenticationsList : List AuthenticationRequirement → List JWTAuthentication
  | [] => []
  | r :: rs => r.jwtAuthentications ++ jwtAuthenticationsList rs
end

/-- The flattened JWT-requirement cache of one API. -/
def APISpec.jwtAuthentications (api : APISpec) : List JWTAuthentication :=
  api.Authentication.jwtAuthentications

/-- The flattened JWT-requirement cache of one operation. -/
def APIOperation.jwtAuthentications (op : APIOperation) : List JWTAuthentication :=
  op.Authentication.jwtAuthentications

/-- `EnvironmentSpecExt.JWTAuthentications` (which reads only the embedded
`EnvironmentSpec`): the nested append loops of the source, collecting each
API's cache and then each of that API's operations' caches. -/
def JWTAuthentications (e : EnvironmentSpec) : List JWTAuthentication :=
  e.APIs.foldl
    (fun auths api =>
      api.Operations.foldl
        (fun auths op => auths ++ op.jwtAuthentications)
        (auths ++ api.jwtAuthentications))
    []

/-! ## Serialization of `AuthenticationRequirement`

The YAML (un)marshalling functions for `AuthenticationRequirement` live in a
file of this repository that is not under `src/` (only their tests are), so
they are modelled from the specification, over a raw-record type standing for
the decoded textual form. -/

/-- Modelled from the spec: the raw decoded record of an
`AuthenticationRequirement` in the textual configuration form — a `disabled`
flag plus the three optional keyed alternatives `jwt`, `any` and `all`. -/
inductive RawAuthenticationRequirement where
  | mk (disabled : Bool) (jwt : Option JWTAuthentication)
       (anyKey : Option (List RawAuthenticationRequirement))
       (allKey : Option (List RawAuthenticationRequirement))

/-- The `disabled` flag of a raw record. -/
def RawAuthenticationRequirement.disabled : RawAuthenticationRequirement → Bool
  | .mk d _ _ _ => d

/-- How many of the three keyed alternatives are present on a raw record. -/
def RawAuthenticationRequirement.keyCount : RawAuthenticationRequirement → Nat
  | .mk _ jwt anyKey allKey =>
    (if jwt.isSome then 1 else 0) + (if anyKey.isSome then 1 else 0) +
      (if allKey.isSome then 1 else 0)

mutual
/-- Modelled from the spec: decoding an `AuthenticationRequirement` from its
textual form.  Unless the record's `disabled` flag is set, precisely one of
the keys `jwt`, `any`, `all` must be present, otherwise decoding fails with
"precisely one of jwt, any or all should be set"; a disabled record skips the
exactly-one check and decodes leniently. -/
def unmarshalAuthenticationRequirement :
    RawAuthenticationRequirement → Except String AuthenticationRequirement
  | .mk disabled jwt anyKey allKey =>
    if disabled = false ∧
        RawAuthenticationRequirement.keyCount (.mk disabled jwt anyKey allKey) ≠ 1 then
      .error "precisely one of jwt, any or all should be set"
    else
      match jwt, anyKey, allKey with
      | some j, _, _ => .ok (.mk disabled (some (.jwt j)))
      | none, some rs, _ =>
        (unmarshalList rs).map fun l => .mk disabled (some (.anyOf l))
      | none, none, some rs =>
        (unmarshalList rs).map fun l => .mk disabled (some (.allOf l))
      | none, none, none => .ok (.mk disabled none)

/-- Decoding of a list of raw records, failing on the first failure. -/
def unmarshalList :
    List RawAuthenticationRequirement → Except String (List AuthenticationRequirement)
  | [] => .ok []
  | r :: rs => do
    let a ← unmarshalAuthenticationRequirement r
    let l ← unmarshalList rs
    .ok (a :: l)
end

mutual
/-- Modelled from the spec: encoding an `AuthenticationRequirement` to its
textual form places the carried variant under its key (`jwt`, `any` or `all`)
next to the `disabled` flag; an unrecognized variant is rejected with an
error rather than silently dropped. -/
def marshalAuthenticationRequirement :
    AuthenticationRequirement → Except String RawAuthenticationRequirement
  | .mk d none => .ok (.mk d none none none)
  | .mk d (some (.jwt j)) => .ok (.mk d (some j) none none)
  | .mk d (some (.anyOf rs)) => (marshalList rs).map fun l => .mk d none (some l) none
  | .mk d (some (.allOf rs)) => (marshalList rs).map fun l => .mk d none none (some l)
  | .mk _ (some (.other _)) => .error "unsupported authentication requirement type"

/-- Encoding of a list of requirement nodes, failing on the first failure. -/
def marshalList :
    List AuthenticationRequirement → Except String (List RawAuthenticationRequirement)
  | [] => .ok []
  | r :: rs => do
    let a ← marshalAuthenticationRequirement r
    let l ← marshalList rs
    .ok (a :: l)
end

mutual
/-- A structurally valid requirement value, per §3 of the spec: every node of
the tree carries exactly one of the three known variants. -/
def validAuthenticationRequirement : AuthenticationRequirement → Bool
  | .mk _ none => false
  | .mk _ (some (.jwt _)) => true
  | .mk _ (some (.anyOf rs)) => validList rs
  | .mk _ (some (.allOf rs)) => validList rs
  | .mk _ (some (.other _)) => false

/-- Validity of every node of a child list. -/
def validList : List AuthenticationRequirement → Bool
  | [] => true
  | r :: rs => validAuthenticationRequirement r && validList rs
end

/-- Whether an `Except` value is a success. -/
def exceptOk {ε α : Type} : Except ε α → Bool
  | .ok _ => true
  | .error _ => false

/-- Whether the child lists of a raw record decode successfully (used to
state that a disabled record with well-formed children decodes leniently). -/
def RawAuthenticationRequirement.childrenOk : RawAuthenticationRequirement → Bool
  | .mk _ _ anyKey allKey =>
    (match anyKey with
     | some rs => exceptOk (unmarshalList rs)
     | none => true) &&
    (match allKey with
     | some rs => exceptOk (unmarshalList rs)
     | none => true)

/-! ## Template compiler and the extension builder -/

/-- A compiled template: the raw string together with the ordered list of
placeholder names it references (the renderer itself is opaque to this
development). -/
structure Template where
  raw : String
  names : List String
deriving DecidableEq, Repr, Inhabited

mutual
/-- Modelled from the spec: the template grammar scanner of the `transform`
package (not under `src/`) — literal text interspersed with brace-delimited
placeholders; compiling validates bracket balance and placeholder syntax and
collects the ordered placeholder names. -/
def scanTemplate : List Char → Except String (List String)
  | [] => .ok []
  | c :: cs =>
    if c = '\x7d' then .error "unbalanced closing brace in template"
    else if c = '\x7b' then scanPlaceholder cs []
    else scanTemplate cs

/-- Scans one placeholder name up to its closing brace. -/
def scanPlaceholder : List Char → List Char → Except String (List String)
  | [], _ => .error "unterminated placeholder in template"
  | c :: cs, acc =>
    if c = '\x7d' then
      if acc.isEmpty then .error "empty placeholder name in template"
      else (scanTemplate cs).map fun ns => String.mk acc.reverse :: ns
    else if c = '\x7b' then .error "unbalanced brace in template placeholder"
    else scanPlaceholder cs (c :: acc)
end

/-- Modelled from the spec: `transform.Parse`, compiling a raw template
string or reporting its syntax error. -/
def Parse (templateString : String) : Except String Template :=
  (scanTemplate templateString.toList).map fun ns =>
    { raw := templateString, names := ns }

/-- The `compiledTemplates` cache: raw string to compiled template, a nil
entry standing for Go's nil pointer. -/
abbrev TemplateCache := List (String × Option Template)

/-- Go map assignment `m[k] = v`: replace the binding for `k` if one exists,
otherwise add one. -/
def mapInsert {α : Type} : List (String × α) → String → α → List (String × α)
  | [], k, v => [(k, v)]
  | (k0, v0) :: rest, k, v =>
    if k0 = k then (k, v) :: rest else (k0, v0) :: mapInsert rest k v

/-- `parseTemplate` of the source, at the level of the cache it mutates:
the empty string compiles to nil without caching; otherwise the parse result
is stored under the raw string (also on a parse error, whose propagation then
discards the whole extension object) and returned along with any error. -/
def parseTemplate (c : TemplateCache) (templateString : String) :
    TemplateCache × Except String (Option Template) :=
  if templateString = "" then (c, .ok none)
  else
    match Parse templateString with
    | .ok t => (mapInsert c templateString (some t), .ok (some t))
    | .error e => (mapInsert c templateString none, .error e)

/-- The template stored for a raw string by a successful `parseTemplate`. -/
def parsedTemplate (templateString : String) : Option Template :=
  if templateString = "" then none else (Parse templateString).toOption

/-- `parseAPIOperationParameter` of the source (which mutates only the
template cache): skip when both parts are empty, else compile the template
and then the substitution. -/
def parseAPIOperationParameter (c : TemplateCache) (s : StringTransformation) :
    Except String TemplateCache :=
  if s.Template = "" ∧ s.Substitution = "" then .ok c
  else
    match parseTemplate c s.Template with
    | (_, .error e) => .error e
    | (c1, .ok _) =>
      match parseTemplate c1 s.Substitution with
      | (_, .error e) => .error e
      | (c2, .ok _) => .ok c2

/-- The `for _, in := range ...In` loops of the source: compile every
parameter's transformation. -/
def parseInParameters : TemplateCache → List APIOperationParameter → Except String TemplateCache
  | c, [] => .ok c
  | c, p :: ps =>
    match parseAPIOperationParameter c p.Transformation with
    | .error e => .error e
    | .ok c1 => parseInParameters c1 ps

/-- The add-entry loops of `parseHTTPRequestTransforms`: compile every add
value. -/
def parseAddValues : TemplateCache → List AddNameValue → Except String TemplateCache
  | c, [] => .ok c
  | c, a :: rest =>
    match parseTemplate c a.Value with
    | (_, .error e) => .error e
    | (c1, .ok _) => parseAddValues c1 rest

/-- The `parseHTTPRequestTransforms` closure of the source: compile the path
transform, then every header add value, then every query add value. -/
def parseHTTPRequestTransforms (c : TemplateCache) (t : HTTPRequestTransforms) :
    Except String TemplateCache :=
  match parseTemplate c t.PathTransform with
  | (_, .error e) => .error e
  | (c1, .ok _) =>
    match parseAddValues c1 t.HeaderTransforms.Add with
    | .error e => .error e
    | .ok c2 => parseAddValues c2 t.QueryTransforms.Add

/-- `EnvironmentSpecExt`: the compiled extension object.  The two path trees
are modelled by their insertion sequences (key segments paired with the
stored value); the regex cache maps each raw pattern to its compiled form,
modelled by the pattern itself. -/
structure EnvironmentSpecExt where
  spec : EnvironmentSpec
  apiPathTree : List (List String × APISpec)
  opPathTree : List (List String × (APIOperation × Option Template))
  compiledTemplates : TemplateCache
  corsVary : List (String × Bool)
  corsAllowedOrigins : List (String × List (String × Bool))
  compiledRegExps : List (String × String)

/-- `EnvironmentSpecExt.GetTemplate`: plain map lookup, nil when absent. -/
def EnvironmentSpecExt.GetTemplate (e : EnvironmentSpecExt) (templateString : String) :
    Option Template :=
  (e.compiledTemplates.lookup templateString).join

/-- The CORS origin loop of the source: build the allowed-origin set and
flag `mustVary` when the wildcard origin is seen. -/
def corsOriginScan (origins : List String) : List (String × Bool) × Bool :=
  origins.foldl (fun acc o => (mapInsert acc.1 o true, acc.2 || (o == wildcard)))
    ([], false)

/-- The regex loop of the source: cache each origin regex by its raw form. -/
def compileRegexes (m : List (String × String)) (regexes : List String) :
    List (String × String) :=
  regexes.foldl (fun m r => mapInsert m r r) m

/-- The HTTP-match loop of `NewEnvironmentSpecExt`: for each match, the
any-method token is normalized to the wildcard segment, the path template is
compiled, and the operation is inserted under
`[API ID, method, path segments...]`. -/
def buildMatches (apiID : String) (op : APIOperation) :
    EnvironmentSpecExt → List HTTPMatch → Except String EnvironmentSpecExt
  | st, [] => .ok st
  | st, m :: ms =>
    let split := apiID :: (if m.Method = anyMethod then wildcard else m.Method)
      :: m.PathTemplate.splitOn "/"
    match parseTemplate st.compiledTemplates m.PathTemplate with
    | (_, .error e) => .error e
    | (c, .ok t) =>
      buildMatches apiID op
        { st with compiledTemplates := c,
                  opPathTree := st.opPathTree ++ [(split, (op, t))] } ms

/-- The per-operation body of `NewEnvironmentSpecExt`: an operation without
HTTP matches is inserted under `[API ID, "*", "*"]`; then the operation's
consumer-authorization parameters and request transforms are compiled. -/
def buildOp (st : EnvironmentSpecExt) (apiID : String) (op : APIOperation) :
    Except String EnvironmentSpecExt :=
  match (if op.HTTPMatches.isEmpty then
      Except.ok { st with opPathTree :=
        st.opPathTree ++ [([apiID, wildcard, wildcard], (op, none))] }
    else
      buildMatches apiID op st op.HTTPMatches) with
  | .error e => .error e
  | .ok st1 =>
    match parseInParameters st1.compiledTemplates op.ConsumerAuthorization.In with
    | .error e => .error e
    | .ok c1 =>
      match parseHTTPRequestTransforms c1 op.HTTPRequestTransforms with
      | .error e => .error e
      | .ok c2 => .ok { st1 with compiledTemplates := c2 }

/-- The operation loop of `NewEnvironmentSpecExt`. -/
def buildOps (apiID : String) :
    EnvironmentSpecExt → List APIOperation → Except String EnvironmentSpecExt
  | st, [] => .ok st
  | st, op :: ops =>
    match buildOp st apiID op with
    | .error e => .error e
    | .ok st1 => buildOps apiID st1 ops

/-- The per-API body of `NewEnvironmentSpecExt`: record the API under its
base-path segments, precompute the CORS sets and the must-vary flag, compile
the API's consumer-authorization parameters and request transforms, then
process its operations. -/
def buildAPI (st : EnvironmentSpecExt) (api : APISpec) :
    Except String EnvironmentSpecExt :=
  let st := { st with apiPathTree :=
    st.apiPathTree ++ [("/" :: api.BasePath.splitOn "/", api)] }
  let scan := corsOriginScan api.Cors.AllowOrigins
  let st := { st with
    corsAllowedOrigins := mapInsert st.corsAllowedOrigins api.ID scan.1,
    compiledRegExps := compileRegexes st.compiledRegExps api.Cors.AllowOriginsRegexes,
    corsVary := mapInsert st.corsVary api.ID
      (scan.2 || decide (api.Cors.AllowOriginsRegexes.length > 0)
        || decide (api.Cors.AllowOrigins.length > 1)) }
  match parseInParameters st.compiledTemplates api.ConsumerAuthorization.In with
  | .error e => .error e
  | .ok c1 =>
    match parseHTTPRequestTransforms c1 api.HTTPRequestTransforms with
    | .error e => .error e
    | .ok c2 => buildOps api.ID { st with compiledTemplates := c2 } api.Operations

/-- The API loop of `NewEnvironmentSpecExt`. -/
def buildAPIs : EnvironmentSpecExt → List APISpec → Except String EnvironmentSpecExt
  | st, [] => .ok st
  | st, api :: apis =>
    match buildAPI st api with
    | .error e => .error e
    | .ok st1 => buildAPIs st1 apis

/-- The final loop of `NewEnvironmentSpecExt`: compile the parameter
transformations of every flattened JWT authentication. -/
def parseJWTAuthentications :
    TemplateCache → List JWTAuthentication → Except String TemplateCache
  | c, [] => .ok c
  | c, j :: js =>
    match parseInParameters c j.In with
    | .error e => .error e
    | .ok c1 => parseJWTAuthentications c1 js

/-- `NewEnvironmentSpecExt`: builds the extension object for a specification,
surfacing the first template-compile error. -/
def NewEnvironmentSpecExt (spec : EnvironmentSpec) : Except String EnvironmentSpecExt :=
  let ec : EnvironmentSpecExt :=
    { spec := spec, apiPathTree := [], opPathTree := [], compiledTemplates := [],
      corsVary := [], corsAllowedOrigins := [], compiledRegExps := [] }
  match buildAPIs ec spec.APIs with
  | .error e => .error e
  | .ok st =>
    match parseJWTAuthentications st.compiledTemplates (JWTAuthentications spec) with
    | .error e => .error e
    | .ok c => .ok { st with compiledTemplates := c }

/-! ## Statement-side functions -/

/-- The raw template strings a `StringTransformation` contributes (none when
both parts are empty, matching the early return of
`parseAPIOperationParameter`). -/
def stringsOfTransformation (s : StringTransformation) : List String :=
  if s.Template = "" ∧ s.Substitution = "" then [] else [s.Template, s.Substitution]

/-- The raw template strings contributed by a parameter-binding list. -/
def stringsOfIn (ins : List APIOperationParameter) : List String :=
  (ins.map fun p => stringsOfTransformation p.Transformation).flatten

/-- The raw template strings contributed by request transforms: the path
transform and every header/query add value. -/
def stringsOfTransforms (t : HTTPRequestTransforms) : List String :=
  t.PathTransform ::
    (t.HeaderTransforms.Add.map (·.Value) ++ t.QueryTransforms.Add.map (·.Value))

/-- The raw template strings contributed by one operation, in traversal
order: path-match templates, consumer-authorization transformations, request
transforms. -/
def stringsOfOp (op : APIOperation) : List String :=
  op.HTTPMatches.map (·.PathTemplate) ++ stringsOfIn op.ConsumerAuthorization.In ++
    stringsOfTransforms op.HTTPRequestTransforms

/-- The raw template strings contributed by one API, in traversal order. -/
def stringsOfAPI (api : APISpec) : List String :=
  stringsOfIn api.ConsumerAuthorization.In ++
    stringsOfTransforms api.HTTPRequestTransforms ++
    (api.Operations.map stringsOfOp).flatten

/-- Every raw template string of the specification, in the order
`NewEnvironmentSpecExt` encounters them: all path-match, path/header/query
transform, and claim template/substitution positions. -/
def templateStrings (spec : EnvironmentSpec) : List String :=
  (spec.APIs.map stringsOfAPI).flatten ++
    ((JWTAuthentications spec).map fun j => stringsOfIn j.In).flatten

/-- The operation-trie insertion one HTTP match gives rise to. -/
def matchEntry (apiID : String) (op : APIOperation) (m : HTTPMatch) :
    List String × (APIOperation × Option Template) :=
  (apiID :: (if m.Method = anyMethod then wildcard else m.Method)
     :: m.PathTemplate.splitOn "/",
   (op, parsedTemplate m.PathTemplate))

/-- The operation-trie insertions one operation gives rise to. -/
def opEntries (apiID : String) (op : APIOperation) :
    List (List String × (APIOperation × Option Template)) :=
  if op.HTTPMatches.isEmpty then [([apiID, wildcard, wildcard], (op, none))]
  else op.HTTPMatches.map (matchEntry apiID op)

/-- The must-vary flag `NewEnvironmentSpecExt` records for one API. -/
def corsVaryValue (api : APISpec) : Bool :=
  (corsOriginScan api.Cors.AllowOrigins).2
    || decide (api.Cors.AllowOriginsRegexes.length > 0)
    || decide (api.Cors.AllowOrigins.length > 1)

/-- Folding `parseTemplate` over a list of raw strings, stopping at the
first parse error; the normal form of the cache side effects of the
builder. -/
def cacheFold : TemplateCache → List String → Except String TemplateCache
  | c, [] => .ok c
  | c, s :: ss =>
    match parseTemplate c s with
    | (_, .error e) => .error e
    | (c1, .ok _) => cacheFold c1 ss

/-- The keys of an association-list map. -/
def mapKeys {α : Type} (m : List (String × α)) : List String :=
  m.map Prod.fst

/-- Insertion into a key list: append the key if absent. -/
def insKey (ks : List String) (s : String) : List String :=
  if s ∈ ks then ks else ks ++ [s]

/-- The aggregate JWT-requirement order as literally claimed: the
concatenation of every API's flattened list, followed by the concatenation of
every operation's flattened list, across the whole specification. -/
def JWTAuthenticationsSpecOrder (e : EnvironmentSpec) : List JWTAuthentication :=
  (e.APIs.map APISpec.jwtAuthentications).flatten ++
    (e.APIs.map fun api =>
      (api.Operations.map APIOperation.jwtAuthentications).flatten).flatten

/-! ## Concrete values used by witnesses and counterexamples -/

/-- A sample JWT definition. -/
def jwtFoo : JWTAuthentication :=
  { Name := "foo", Issuer := "issuer", Audiences := [],
    JWKSSource := { URL := "url", CacheDuration := 3600 },
    In := [{ Match := .header "jwt",
             Transformation := { Template := "", Substitution := "" } }] }

/-- A second sample JWT definition. -/
def jwtBar : JWTAuthentication :=
  { Name := "bar", Issuer := "issuer2", Audiences := ["aud"],
    JWKSSource := { URL := "url2", CacheDuration := 3600 },
    In := [{ Match := .query "token",
             Transformation := { Template := "", Substitution := "" } }] }

/-- A third sample JWT definition. -/
def jwtBaz : JWTAuthentication :=
  { Name := "baz", Issuer := "issuer3", Audiences := [],
    JWKSSource := { URL := "url3", CacheDuration := 7200 },
    In := [] }

/-- An empty authentication requirement. -/
def authNone : AuthenticationRequirement := .mk false none

/-- An always-empty consumer authorization. -/
def consumerNone : ConsumerAuthorization := { Disabled := false, In := [] }

/-- Empty request transforms. -/
def transformsNone : HTTPRequestTransforms :=
  { HeaderTransforms := { Add := [], Remove := [] },
    QueryTransforms := { Add := [], Remove := [] },
    PathTransform := "" }

/-- An empty CORS policy. -/
def corsNone : CorsPolicy := { AllowOrigins := [], AllowOriginsRegexes := [] }

/-- An operation with no HTTP matches and a JWT requirement. -/
def opWithJwt : APIOperation :=
  { Name := "op-1", HTTPMatches := [],
    Authentication := .mk false (some (.jwt jwtBar)),
    ConsumerAuthorization := consumerNone,
    HTTPRequestTransforms := transformsNone }

/-- An operation matched on any method, with a transformed consumer
credential. -/
def opPetstore : APIOperation :=
  { Name := "op-2",
    HTTPMatches := [{ PathTemplate := "/petstore", Method := anyMethod }],
    Authentication := authNone,
    ConsumerAuthorization :=
      { Disabled := false,
        In := [{ Match := .header "authorization",
                 Transformation := { Template := "Bearer {token}",
                                     Substitution := "{token}" } }] },
    HTTPRequestTransforms := transformsNone }

/-- A sample API with a JWT requirement of its own, two operations, request
transforms and a wildcard CORS origin. -/
def apiOne : APISpec :=
  { ID := "api1", BasePath := "/v1",
    Authentication := .mk false (some (.jwt jwtFoo)),
    ConsumerAuthorization := consumerNone,
    Operations := [opWithJwt, opPetstore],
    HTTPRequestTransforms :=
      { HeaderTransforms :=
          { Add := [{ Name := "x-t", Value := "{token}", Overwrite := false }],
            Remove := [] },
        QueryTransforms := { Add := [], Remove := [] },
        PathTransform := "/pre/{path}" },
    Cors := { AllowOrigins := ["*"], AllowOriginsRegexes := [] } }

/-- A second sample API carrying only an API-level JWT requirement. -/
def apiTwo : APISpec :=
  { ID := "api2", BasePath := "/v2",
    Authentication := .mk false (some (.jwt jwtBaz)),
    ConsumerAuthorization := consumerNone,
    Operations := [],
    HTTPRequestTransforms := transformsNone,
    Cors := corsNone }

/-- A sample two-API specification. -/
def specTwoAPIs : EnvironmentSpec := { ID := "spec", APIs := [apiOne, apiTwo] }

/-- A valid requirement value nesting any-of over all-of over JWT leaves,
with disabled flags sprinkled, mirroring the round-trip test. -/
def authNested : AuthenticationRequirement :=
  .mk true (some (.anyOf
    [.mk false (some (.allOf
      [.mk true (some (.jwt jwtFoo)),
       .mk false (some (.jwt jwtBar))])),
     .mk false (some (.jwt jwtBaz))]))

/-- The extension object built from `specTwoAPIs`. -/
def extTwoAPIs : EnvironmentSpecExt :=
  match NewEnvironmentSpecExt specTwoAPIs with
  | .ok e => e
  | .error _ =>
    { spec := specTwoAPIs, apiPathTree := [], opPathTree := [],
      compiledTemplates := [], corsVary := [], corsAllowedOrigins := [],
      compiledRegExps := [] }

/-! ## Helper lemmas -/

mutual
/-- A recursively empty requirement tree has no JWT leaves. -/
theorem jwtAuths_nil_of_isEmpty :
    ∀ a : AuthenticationRequirement, isEmpty a = true → a.jwtAuthentications = []
  | .mk _ none, _ => rfl
  | .mk _ (some r), h => jwtAuthsReqs_nil_of_isEmptyReqs r (by simpa [isEmpty] using h)

/-- A recursively empty requirement variant has no JWT leaves. -/
theorem jwtAuthsReqs_nil_of_isEmptyReqs :
    ∀ r : AuthenticationRequirements,
      isEmptyRequirements r = true → AuthenticationRequirements.jwtAuthentications r = []
  | .jwt _, h => by simp [isEmptyRequirements] at h
  | .anyOf rs, h => by
      simpa [AuthenticationRequirements.jwtAuthentications] using
        jwtAuthsList_nil_of_isEmptyList rs (by simpa [isEmptyRequirements] using h)
  | .allOf rs, h => by
      simpa [AuthenticationRequirements.jwtAuthentications] using
        jwtAuthsList_nil_of_isEmptyList rs (by simpa [isEmptyRequirements] using h)
  | .other _, _ => rfl

/-- A recursively empty child list has no JWT leaves. -/
theorem jwtAuthsList_nil_of_isEmptyList :
    ∀ rs : List AuthenticationRequirement,
      isEmptyList rs = true → jwtAuthenticationsList rs = []
  | [], _ => rfl
  | r :: rs, h => by
      have h1 : isEmpty r = true ∧ isEmptyList rs = true := by
        simpa [isEmptyList, Bool.and_eq_true] using h
      simp [jwtAuthenticationsList, jwtAuths_nil_of_isEmpty r h1.1,
        jwtAuthsList_nil_of_isEmptyList rs h1.2]
end

/-- The child loop of `isEmpty` is true exactly when every child is empty. -/
theorem isEmptyList_eq_true_iff (rs : List AuthenticationRequirement) :
    isEmptyList rs = true ↔ ∀ r ∈ rs, isEmpty r = true := by
  induction rs with
  | nil => simp [isEmptyList]
  | cons r rs ih => simp [isEmptyList, Bool.and_eq_true, ih]

/-- Folding `acc ++ g x` over a list appends the flattened image. -/
theorem foldl_append_flatten {α β : Type} (g : α → List β) :
    ∀ (l : List α) (acc : List β),
      l.foldl (fun a x => a ++ g x) acc = acc ++ (l.map g).flatten := by
  intro l
  induction l with
  | nil => intro acc; simp
  | cons x xs ih => intro acc; simp [ih]

/-- The inner operation loop of `JWTAuthentications`. -/
theorem jwtAuths_inner_foldl (ops : List APIOperation) (acc : List JWTAuthentication) :
    ops.foldl (fun auths op => auths ++ op.jwtAuthentications) acc
      = acc ++ (ops.map APIOperation.jwtAuthentications).flatten :=
  foldl_append_flatten _ ops acc

/-- The nested append loops of `JWTAuthentications`, with a generalized
accumulator. -/
theorem jwtAuths_foldl (apis : List APISpec) (acc : List JWTAuthentication) :
    apis.foldl
      (fun auths api =>
        api.Operations.foldl (fun auths op => auths ++ op.jwtAuthentications)
          (auths ++ api.jwtAuthentications)) acc
    = acc ++ (apis.map fun api =>
        api.jwtAuthentications ++
          (api.Operations.map APIOperation.jwtAuthentications).flatten).flatten := by
  induction apis generalizing acc with
  | nil => simp
  | cons api apis ih =>
    simp only [List.foldl_cons]
    rw [jwtAuths_inner_foldl, ih]
    simp [List.append_assoc]

/-- `cacheFold` distributes over appending string lists. -/
theorem cacheFold_append (xs : List String) :
    ∀ (c : TemplateCache) (ys : List String),
      cacheFold c (xs ++ ys) = (cacheFold c xs).bind fun c1 => cacheFold c1 ys := by
  induction xs with
  | nil => intro c ys; simp [cacheFold, Except.bind]
  | cons x xs ih =>
    intro c ys
    rcases hp : parseTemplate c x with ⟨c1, r⟩
    cases r with
    | error e => simp [cacheFold, hp, Except.bind]
    | ok t => simp [cacheFold, hp, Except.bind, ih]

/-- A successful `parseTemplate` returns the parse of its input. -/
theorem parseTemplate_ok_val {c c1 : TemplateCache} {s : String} {t : Option Template}
    (h : parseTemplate c s = (c1, .ok t)) : t = parsedTemplate s := by
  by_cases hs : s = ""
  · simp [parseTemplate, hs, parsedTemplate] at h ⊢
    exact h.2.symm
  · rcases hp : Parse s with e | t1 <;>
      simp [parseTemplate, hs, hp, parsedTemplate, Except.toOption] at h ⊢
    exact h.2.symm

/-- `parseAPIOperationParameter` is `cacheFold` over the transformation's
strings. -/
theorem parseAPIOperationParameter_eq (c : TemplateCache) (s : StringTransformation) :
    parseAPIOperationParameter c s = cacheFold c (stringsOfTransformation s) := by
  by_cases h : s.Template = "" ∧ s.Substitution = ""
  · simp [parseAPIOperationParameter, stringsOfTransformation, h, cacheFold]
  · rcases h1 : parseTemplate c s.Template with ⟨c1, r1⟩
    cases r1 with
    | error e => simp [parseAPIOperationParameter, stringsOfTransformation, h, h1, cacheFold]
    | ok t1 =>
      rcases h2 : parseTemplate c1 s.Substitution with ⟨c2, r2⟩
      cases r2 with
      | error e => simp [parseAPIOperationParameter, stringsOfTransformation, h, h1, h2, cacheFold]
      | ok t2 => simp [parseAPIOperationParameter, stringsOfTransformation, h, h1, h2, cacheFold]

/-- `parseInParameters` is `cacheFold` over the bindings' strings. -/
theorem parseInParameters_eq (ins : List APIOperationParameter) :
    ∀ c : TemplateCache, parseInParameters c ins = cacheFold c (stringsOfIn ins) := by
  induction ins with
  | nil => intro c; simp [parseInParameters, stringsOfIn, cacheFold]
  | cons p ps ih =>
    intro c
    have hs : stringsOfIn (p :: ps) =
        stringsOfTransformation p.Transformation ++ stringsOfIn ps := by
      simp [stringsOfIn]
    rw [hs, cacheFold_append]
    rcases hp : parseAPIOperationParameter c p.Transformation with e | c1
    · rw [parseAPIOperationParameter_eq] at hp
      simp [parseInParameters, parseAPIOperationParameter_eq, hp, Except.bind]
    · rw [parseAPIOperationParameter_eq] at hp
      simp [parseInParameters, parseAPIOperationParameter_eq, hp, Except.bind, ih]

/-- `parseAddValues` is `cacheFold` over the add values. -/
theorem parseAddValues_eq (l : List AddNameValue) :
    ∀ c : TemplateCache, parseAddValues c l = cacheFold c (l.map (·.Value)) := by
  induction l with
  | nil => intro c; simp [parseAddValues, cacheFold]
  | cons a rest ih =>
    intro c
    rcases hp : parseTemplate c a.Value with ⟨c1, r⟩
    cases r with
    | error e => simp [parseAddValues, hp, cacheFold]
    | ok t => simp [parseAddValues, hp, cacheFold, ih]

/-- `parseHTTPRequestTransforms` is `cacheFold` over the transform strings. -/
theorem parseHTTPRequestTransforms_eq (c : TemplateCache) (t : HTTPRequestTransforms) :
    parseHTTPRequestTransforms c t = cacheFold c (stringsOfTransforms t) := by
  rcases hp : parseTemplate c t.PathTransform with ⟨c1, r⟩
  cases r with
  | error e => simp [parseHTTPRequestTransforms, hp, stringsOfTransforms, cacheFold]
  | ok t1 =>
    rcases ha : parseAddValues c1 t.HeaderTransforms.Add with e | c2
    · rw [parseAddValues_eq] at ha
      simp [parseHTTPRequestTransforms, hp, ha, stringsOfTransforms, cacheFold,
        cacheFold_append, parseAddValues_eq, Except.bind]
    · rw [parseAddValues_eq] at ha
      simp [parseHTTPRequestTransforms, hp, ha, stringsOfTransforms, cacheFold,
        cacheFold_append, parseAddValues_eq, Except.bind]

/-- `parseJWTAuthentications` is `cacheFold` over the flattened JWT
requirements' binding strings. -/
theorem parseJWTAuthentications_eq (js : List JWTAuthentication) :
    ∀ c : TemplateCache,
      parseJWTAuthentications c js =
        cacheFold c ((js.map fun j => stringsOfIn j.In).flatten) := by
  induction js with
  | nil => intro c; simp [parseJWTAuthentications, cacheFold]
  | cons j js ih =>
    intro c
    simp only [List.map_cons, List.flatten_cons]
    rw [cacheFold_append]
    rcases hp : parseInParameters c j.In with e | c1
    · rw [parseInParameters_eq] at hp
      simp [parseJWTAuthentications, parseInParameters_eq, hp, Except.bind]
    · rw [parseInParameters_eq] at hp
      simp [parseJWTAuthentications, parseInParameters_eq, hp, Except.bind, ih]

/-- What a successful `buildMatches` run does to the state: it folds the
path templates into the cache and appends one trie entry per match. -/
theorem buildMatches_ok (apiID : String) (op : APIOperation) :
    ∀ (ms : List HTTPMatch) (st st' : EnvironmentSpecExt),
      buildMatches apiID op st ms = .ok st' →
      cacheFold st.compiledTemplates (ms.map (·.PathTemplate)) =
        .ok st'.compiledTemplates ∧
      st'.opPathTree = st.opPathTree ++ ms.map (matchEntry apiID op) ∧
      st'.corsVary = st.corsVary := by
  intro ms
  induction ms with
  | nil =>
    intro st st' h
    simp only [buildMatches, Except.ok.injEq] at h
    subst h
    simp [cacheFold]
  | cons m ms ih =>
    intro st st' h
    simp only [buildMatches] at h
    rcases hp : parseTemplate st.compiledTemplates m.PathTemplate with ⟨c, r⟩
    rw [hp] at h
    cases r with
    | error e => simp at h
    | ok t =>
      simp only [] at h
      obtain ⟨h1, h2, h3⟩ := ih _ _ h
      refine ⟨?_, ?_, ?_⟩
      · simp only [List.map_cons, cacheFold, hp]
        simpa using h1
      · rw [h2]
        simp [matchEntry, parseTemplate_ok_val hp, List.append_assoc]
      · simpa using h3

/-- What a successful `buildOp` run does to the state. -/
theorem buildOp_ok (apiID : String) (op : APIOperation)
    (st st' : EnvironmentSpecExt) (h : buildOp st apiID op = .ok st') :
    cacheFold st.compiledTemplates (stringsOfOp op) = .ok st'.compiledTemplates ∧
    st'.opPathTree = st.opPathTree ++ opEntries apiID op ∧
    st'.corsVary = st.corsVary := by
  unfold buildOp at h
  by_cases hm : op.HTTPMatches.isEmpty
  · rw [if_pos hm] at h
    simp only [] at h
    have hnil : op.HTTPMatches = [] := by
      cases hML : op.HTTPMatches with
      | nil => rfl
      | cons a l => rw [hML] at hm; simp at hm
    rcases hin : parseInParameters st.compiledTemplates op.ConsumerAuthorization.In
        with e | c1
    · rw [hin] at h; simp at h
    · rw [hin] at h
      simp only [] at h
      rcases htr : parseHTTPRequestTransforms c1 op.HTTPRequestTransforms with e | c2
      · rw [htr] at h; simp at h
      · rw [htr] at h
        simp only [Except.ok.injEq] at h
        subst h
        rw [parseInParameters_eq] at hin
        rw [parseHTTPRequestTransforms_eq] at htr
        refine ⟨?_, ?_, ?_⟩
        · simp only [stringsOfOp, hnil, List.map_nil, List.nil_append]
          rw [cacheFold_append, hin]
          simpa [Except.bind] using htr
        · simp [opEntries, hm]
        · simp
  · rw [if_neg hm] at h
    rcases hbm : buildMatches apiID op st op.HTTPMatches with e | st1
    · rw [hbm] at h; simp at h
    · rw [hbm] at h
      simp only [] at h
      obtain ⟨b1, b2, b3⟩ := buildMatches_ok apiID op op.HTTPMatches st st1 hbm
      rcases hin : parseInParameters st1.compiledTemplates op.ConsumerAuthorization.In
          with e | c1
      · rw [hin] at h; simp at h
      · rw [hin] at h
        simp only [] at h
        rcases htr : parseHTTPRequestTransforms c1 op.HTTPRequestTransforms with e | c2
        · rw [htr] at h; simp at h
        · rw [htr] at h
          simp only [Except.ok.injEq] at h
          subst h
          rw [parseInParameters_eq] at hin
          rw [parseHTTPRequestTransforms_eq] at htr
          refine ⟨?_, ?_, ?_⟩
          · simp only [stringsOfOp, List.append_assoc]
            rw [cacheFold_append, b1]
            simp only [Except.bind]
            rw [cacheFold_append, hin]
            simpa [Except.bind] using htr
          · simpa [opEntries, hm] using b2
          · simpa using b3

/-- What a successful `buildOps` run does to the state. -/
theorem buildOps_ok (apiID : String) :
    ∀ (ops : List APIOperation) (st st' : EnvironmentSpecExt),
      buildOps apiID st ops = .ok st' →
      cacheFold st.compiledTemplates ((ops.map stringsOfOp).flatten) =
        .ok st'.compiledTemplates ∧
      st'.opPathTree = st.opPathTree ++ (ops.map (opEntries apiID)).flatten ∧
      st'.corsVary = st.corsVary := by
  intro ops
  induction ops with
  | nil =>
    intro st st' h
    simp only [buildOps, Except.ok.injEq] at h
    subst h
    simp [cacheFold]
  | cons op ops ih =>
    intro st st' h
    simp only [buildOps] at h
    rcases hop : buildOp st apiID op with e | st1
    · rw [hop] at h; simp at h
    · rw [hop] at h
      simp only [] at h
      obtain ⟨a1, a2, a3⟩ := buildOp_ok apiID op st st1 hop
      obtain ⟨b1, b2, b3⟩ := ih st1 st' h
      refine ⟨?_, ?_, ?_⟩
      · simp only [List.map_cons, List.flatten_cons]
        rw [cacheFold_append, a1]
        simpa [Except.bind] using b1
      · rw [b2, a2]
        simp [List.append_assoc]
      · rw [b3, a3]

/-- What a successful `buildAPI` run does to the state. -/
theorem buildAPI_ok (api : APISpec) (st st' : EnvironmentSpecExt)
    (h : buildAPI st api = .ok st') :
    cacheFold st.compiledTemplates (stringsOfAPI api) = .ok st'.compiledTemplates ∧
    st'.opPathTree = st.opPathTree ++ (api.Operations.map (opEntries api.ID)).flatten ∧
    st'.corsVary = mapInsert st.corsVary api.ID (corsVaryValue api) := by
  unfold buildAPI at h
  simp only [] at h
  rcases hin : parseInParameters st.compiledTemplates api.ConsumerAuthorization.In
      with e | c1
  · rw [hin] at h; simp at h
  · rw [hin] at h
    simp only [] at h
    rcases htr : parseHTTPRequestTransforms c1 api.HTTPRequestTransforms with e | c2
    · rw [htr] at h; simp at h
    · rw [htr] at h
      simp only [] at h
      obtain ⟨b1, b2, b3⟩ := buildOps_ok api.ID api.Operations _ st' h
      simp only [] at b1 b2 b3
      rw [parseInParameters_eq] at hin
      rw [parseHTTPRequestTransforms_eq] at htr
      refine ⟨?_, ?_, ?_⟩
      · simp only [stringsOfAPI, List.append_assoc]
        rw [cacheFold_append, hin]
        simp only [Except.bind]
        rw [cacheFold_append, htr]
        simpa [Except.bind] using b1
      · simpa using b2
      · simp only [corsVaryValue]
        simpa using b3

/-- What a successful `buildAPIs` run does to the state. -/
theorem buildAPIs_ok :
    ∀ (apis : List APISpec) (st st' : EnvironmentSpecExt),
      buildAPIs st apis = .ok st' →
      cacheFold st.compiledTemplates ((apis.map stringsOfAPI).flatten) =
        .ok st'.compiledTemplates ∧
      st'.opPathTree = st.opPathTree ++
        (apis.map fun api => (api.Operations.map (opEntries api.ID)).flatten).flatten ∧
      st'.corsVary = apis.foldl
        (fun m api => mapInsert m api.ID (corsVaryValue api)) st.corsVary := by
  intro apis
  induction apis with
  | nil =>
    intro st st' h
    simp only [buildAPIs, Except.ok.injEq] at h
    subst h
    simp [cacheFold]
  | cons api apis ih =>
    intro st st' h
    simp only [buildAPIs] at h
    rcases hap : buildAPI st api with e | st1
    · rw [hap] at h; simp at h
    · rw [hap] at h
      simp only [] at h
      obtain ⟨a1, a2, a3⟩ := buildAPI_ok api st st1 hap
      obtain ⟨b1, b2, b3⟩ := ih st1 st' h
      refine ⟨?_, ?_, ?_⟩
      · simp only [List.map_cons, List.flatten_cons]
        rw [cacheFold_append, a1]
        simpa [Except.bind] using b1
      · rw [b2, a2]
        simp [List.append_assoc]
      · rw [b3, a3]
        simp

/-- What a successful `NewEnvironmentSpecExt` run produces. -/
theorem NewEnvironmentSpecExt_ok (spec : EnvironmentSpec) (ext : EnvironmentSpecExt)
    (h : NewEnvironmentSpecExt spec = .ok ext) :
    cacheFold [] (templateStrings spec) = .ok ext.compiledTemplates ∧
    ext.opPathTree =
      (spec.APIs.map fun api =>
        (api.Operations.map (opEntries api.ID)).flatten).flatten ∧
    ext.corsVary = spec.APIs.foldl
      (fun m api => mapInsert m api.ID (corsVaryValue api)) [] := by
  unfold NewEnvironmentSpecExt at h
  simp only [] at h
  rcases hb : buildAPIs
      { spec := spec, apiPathTree := [], opPathTree := [], compiledTemplates := [],
        corsVary := [], corsAllowedOrigins := [], compiledRegExps := [] }
      spec.APIs with e | st
  · rw [hb] at h; simp at h
  · rw [hb] at h
    simp only [] at h
    rcases hj : parseJWTAuthentications st.compiledTemplates (JWTAuthentications spec)
        with e | c
    · rw [hj] at h; simp at h
    · rw [hj] at h
      simp only [] at h
      simp only [Except.ok.injEq] at h
      subst h
      obtain ⟨b1, b2, b3⟩ := buildAPIs_ok spec.APIs _ st hb
      rw [parseJWTAuthentications_eq] at hj
      refine ⟨?_, ?_, ?_⟩
      · simp only [templateStrings]
        rw [cacheFold_append]
        simp only [] at b1
        rw [b1]
        simpa [Except.bind] using hj
      · simpa using b2
      · simpa using b3

/-- `insKey` on a list headed by a different key. -/
theorem insKey_cons (k0 k : String) (ks : List String) (h : k ≠ k0) :
    insKey (k0 :: ks) k = k0 :: insKey ks k := by
  by_cases hk : k ∈ ks <;> simp [insKey, List.mem_cons, h, hk]

/-- Inserting into a map inserts its key. -/
theorem mapKeys_mapInsert {α : Type} (k : String) (v : α) :
    ∀ m : List (String × α), mapKeys (mapInsert m k v) = insKey (mapKeys m) k
  | [] => by simp [mapInsert, mapKeys, insKey]
  | (k0, v0) :: rest => by
    by_cases hk : k0 = k
    · subst hk
      simp [mapInsert, mapKeys, insKey]
    · have hmk : mapKeys ((k0, v0) :: rest) = k0 :: mapKeys rest := by
        simp [mapKeys]
      have hmi : mapInsert ((k0, v0) :: rest) k v = (k0, v0) :: mapInsert rest k v := by
        simp [mapInsert, hk]
      have hmk2 : mapKeys ((k0, v0) :: mapInsert rest k v) =
          k0 :: mapKeys (mapInsert rest k v) := by
        simp [mapKeys]
      rw [hmk, insKey_cons k0 k _ (Ne.symm hk), hmi, hmk2,
        mapKeys_mapInsert k v rest]

/-- Looking up the key just inserted. -/
theorem lookup_mapInsert_self {α : Type} (k : String) (v : α) :
    ∀ m : List (String × α), (mapInsert m k v).lookup k = some v
  | [] => by simp [mapInsert, List.lookup]
  | (k0, v0) :: rest => by
    by_cases hk : k0 = k
    · subst hk
      simp [mapInsert, List.lookup]
    · have hne : (k == k0) = false := beq_eq_false_iff_ne.mpr (Ne.symm hk)
      simp [mapInsert, hk, List.lookup, hne, lookup_mapInsert_self k v rest]

/-- Looking up another key after an insertion. -/
theorem lookup_mapInsert_ne {α : Type} (k k' : String) (v : α) (hne : k' ≠ k) :
    ∀ m : List (String × α), (mapInsert m k v).lookup k' = m.lookup k'
  | [] => by
    have h1 : (k' == k) = false := beq_eq_false_iff_ne.mpr hne
    simp [mapInsert, List.lookup, h1]
  | (k0, v0) :: rest => by
    by_cases hk : k0 = k
    · subst hk
      have h1 : (k' == k0) = false := beq_eq_false_iff_ne.mpr hne
      simp [mapInsert, List.lookup, h1]
    · by_cases hk' : k' = k0
      · subst hk'
        simp [mapInsert, hk, List.lookup]
      · have h1 : (k' == k0) = false := beq_eq_false_iff_ne.mpr hk'
        simp [mapInsert, hk, List.lookup, h1, lookup_mapInsert_ne k k' v hne rest]

/-- A key of the map has a binding. -/
theorem lookup_of_mem_mapKeys {α : Type} (k : String) :
    ∀ m : List (String × α), k ∈ mapKeys m → ∃ v, m.lookup k = some v
  | [], h => by simp [mapKeys] at h
  | (k0, v0) :: rest, h => by
    by_cases hk : k = k0
    · subst hk
      exact ⟨v0, by simp [List.lookup]⟩
    · have hmem : k ∈ mapKeys rest := by
        simpa [mapKeys, hk] using h
      obtain ⟨v, hv⟩ := lookup_of_mem_mapKeys k rest hmem
      exact ⟨v, by simp [List.lookup, beq_eq_false_iff_ne.mpr hk, hv]⟩

/-- `insKey` preserves distinctness. -/
theorem insKey_nodup (ks : List String) (a : String) (h : ks.Nodup) :
    (insKey ks a).Nodup := by
  by_cases ha : a ∈ ks
  · simpa [insKey, ha] using h
  · simp [insKey, ha, List.nodup_append, h]

/-- `insKey` inserts the key into the key set. -/
theorem insKey_toFinset (ks : List String) (a : String) :
    (insKey ks a).toFinset = insert a ks.toFinset := by
  by_cases ha : a ∈ ks
  · ext x
    simp only [insKey, ha, if_true, List.mem_toFinset, Finset.mem_insert]
    constructor
    · exact fun h => Or.inr h
    · rintro (rfl | h)
      · exact ha
      · exact h
  · ext x
    simp [insKey, ha, List.toFinset_append]
    tauto

/-- Folding `insKey` preserves distinctness. -/
theorem foldl_insKey_nodup :
    ∀ (l ks : List String), ks.Nodup → (l.foldl insKey ks).Nodup
  | [], _, h => h
  | a :: l, ks, h => by
    rw [List.foldl_cons]
    exact foldl_insKey_nodup l _ (insKey_nodup ks a h)

/-- The key set after folding `insKey`. -/
theorem foldl_insKey_toFinset :
    ∀ (l ks : List String), (l.foldl insKey ks).toFinset = ks.toFinset ∪ l.toFinset
  | [], ks => by simp
  | a :: l, ks => by
    rw [List.foldl_cons, foldl_insKey_toFinset l _, insKey_toFinset]
    ext x
    simp

/-- What a successful `cacheFold` run guarantees: the cached keys are the
distinct non-empty strings (in first-seen order on top of the initial keys),
every cached value is the parse of its key, and every non-empty string fed
in parsed successfully. -/
theorem cacheFold_ok_props :
    ∀ (ss : List String) (c c' : TemplateCache),
      cacheFold c ss = .ok c' →
      (∀ k v, c.lookup k = some v → v = (Parse k).toOption) →
      mapKeys c' = (ss.filter (· ≠ "")).foldl insKey (mapKeys c) ∧
      (∀ k v, c'.lookup k = some v → v = (Parse k).toOption) ∧
      (∀ s ∈ ss, s ≠ "" → ∃ t, Parse s = .ok t)
  | [], c, c', h, hg => by
    simp only [cacheFold, Except.ok.injEq] at h
    subst h
    exact ⟨by simp, hg, by simp⟩
  | s :: ss, c, c', h, hg => by
    simp only [cacheFold] at h
    by_cases hs : s = ""
    · subst hs
      rw [show parseTemplate c "" = (c, .ok none) from by simp [parseTemplate]] at h
      simp only [] at h
      obtain ⟨k1, k2, k3⟩ := cacheFold_ok_props ss c c' h hg
      refine ⟨?_, k2, ?_⟩
      · have hf : (("" : String) :: ss).filter (· ≠ "") = ss.filter (· ≠ "") := by
          simp
        rw [hf, k1]
      · intro s' hs' hne
        rcases List.mem_cons.mp hs' with rfl | hmem
        · exact absurd rfl hne
        · exact k3 s' hmem hne
    · rcases hp : Parse s with e | t
      · rw [show parseTemplate c s = (mapInsert c s none, .error e) from by
          simp [parseTemplate, hs, hp]] at h
        simp at h
      · rw [show parseTemplate c s = (mapInsert c s (some t), .ok (some t)) from by
          simp [parseTemplate, hs, hp]] at h
        simp only [] at h
        have hg' : ∀ k v, (mapInsert c s (some t)).lookup k = some v →
            v = (Parse k).toOption := by
          intro k v hkv
          by_cases hk : k = s
          · subst hk
            rw [lookup_mapInsert_self] at hkv
            cases hkv
            simp [hp, Except.toOption]
          · rw [lookup_mapInsert_ne _ _ _ hk] at hkv
            exact hg k v hkv
        obtain ⟨k1, k2, k3⟩ := cacheFold_ok_props ss _ c' h hg'
        refine ⟨?_, k2, ?_⟩
        · have hf : (s :: ss).filter (· ≠ "") = s :: ss.filter (· ≠ "") := by
            simp [hs]
          rw [hf, List.foldl_cons, k1, mapKeys_mapInsert]
        · intro s' hs' hne
          rcases List.mem_cons.mp hs' with rfl | hmem
          · exact ⟨t, hp⟩
          · exact k3 s' hmem hne

/-- The second component of the CORS origin scan over any accumulator. -/
theorem corsOriginScan_snd :
    ∀ (l : List String) (p : List (String × Bool) × Bool),
      (l.foldl (fun acc o => (mapInsert acc.1 o true, acc.2 || (o == wildcard))) p).2 =
        (p.2 || l.any fun o => o == wildcard)
  | [], p => by simp
  | o :: l, p => by
    rw [List.foldl_cons, corsOriginScan_snd l _]
    simp [Bool.or_assoc]

/-- The recorded must-vary flag, characterized. -/
theorem corsVaryValue_iff (api : APISpec) :
    corsVaryValue api = true ↔
      (wildcard ∈ api.Cors.AllowOrigins ∨ api.Cors.AllowOriginsRegexes ≠ [] ∨
        1 < api.Cors.AllowOrigins.length) := by
  unfold corsVaryValue corsOriginScan
  rw [corsOriginScan_snd]
  simp [List.any_eq_true, List.length_pos, or_assoc]

/-- Folding the CORS insertions leaves absent keys untouched. -/
theorem lookup_corsVary_foldl_not_mem (k : String) :
    ∀ (apis : List APISpec) (m : List (String × Bool)),
      k ∉ apis.map APISpec.ID →
      (apis.foldl (fun m api => mapInsert m api.ID (corsVaryValue api)) m).lookup k =
        m.lookup k
  | [], m, _ => rfl
  | api :: apis, m, h => by
    have h1 : k ≠ api.ID ∧ k ∉ apis.map APISpec.ID := by
      simpa [not_or] using h
    rw [List.foldl_cons, lookup_corsVary_foldl_not_mem k apis _ h1.2,
      lookup_mapInsert_ne _ _ _ h1.1]

/-- Folding the CORS insertions over APIs with distinct IDs records each
API's flag. -/
theorem lookup_corsVary_foldl (api : APISpec) :
    ∀ (apis : List APISpec) (m : List (String × Bool)),
      (apis.map APISpec.ID).Nodup → api ∈ apis →
      (apis.foldl (fun m a => mapInsert m a.ID (corsVaryValue a)) m).lookup api.ID =
        some (corsVaryValue api)
  | [], _, _, h => by cases h
  | a :: apis, m, hnd, h => by
    rw [List.foldl_cons]
    rcases List.mem_cons.mp h with rfl | hmem
    · have hnd' : api.ID ∉ apis.map APISpec.ID ∧ (apis.map APISpec.ID).Nodup := by
        rw [List.map_cons, List.nodup_cons] at hnd
        exact hnd
      rw [lookup_corsVary_foldl_not_mem _ apis _ hnd'.1, lookup_mapInsert_self]
    · have hnd' : (apis.map APISpec.ID).Nodup := by
        rw [List.map_cons, List.nodup_cons] at hnd
        exact hnd.2
      exact lookup_corsVary_foldl api apis _ hnd' hmem

/-- Sequencing a success in the `Except` monad. -/
theorem except_ok_bind {ε α β : Type} (a : α) (f : α → Except ε β) :
    (Except.ok a : Except ε α) >>= f = f a := rfl

/-- Sequencing an error in the `Except` monad. -/
theorem except_error_bind {ε α β : Type} (e : ε) (f : α → Except ε β) :
    (Except.error e : Except ε α) >>= f = Except.error e := rfl

mutual
/-- Round trip of a valid requirement node. -/
theorem marshal_unmarshal_node :
    ∀ r : AuthenticationRequirement, validAuthenticationRequirement r = true →
      (marshalAuthenticationRequirement r).bind unmarshalAuthenticationRequirement = .ok r
  | .mk _ none, h => by simp [validAuthenticationRequirement] at h
  | .mk d (some (.jwt j)), _ => by
      simp [marshalAuthenticationRequirement, Except.bind,
        unmarshalAuthenticationRequirement, RawAuthenticationRequirement.keyCount]
  | .mk d (some (.anyOf rs)), h => by
      have ih := marshal_unmarshal_list rs
        (by simpa [validAuthenticationRequirement] using h)
      rcases hm : marshalList rs with e | l
      · rw [hm] at ih; simp [Except.bind] at ih
      · rw [hm] at ih
        simp only [Except.bind] at ih
        simp [marshalAuthenticationRequirement, hm, Except.map, Except.bind,
          unmarshalAuthenticationRequirement, RawAuthenticationRequirement.keyCount, ih]
  | .mk d (some (.allOf rs)), h => by
      have ih := marshal_unmarshal_list rs
        (by simpa [validAuthenticationRequirement] using h)
      rcases hm : marshalList rs with e | l
      · rw [hm] at ih; simp [Except.bind] at ih
      · rw [hm] at ih
        simp only [Except.bind] at ih
        simp [marshalAuthenticationRequirement, hm, Except.map, Except.bind,
          unmarshalAuthenticationRequirement, RawAuthenticationRequirement.keyCount, ih]
  | .mk _ (some (.other _)), h => by simp [validAuthenticationRequirement] at h

/-- Round trip of a valid list of requirement nodes. -/
theorem marshal_unmarshal_list :
    ∀ rs : List AuthenticationRequirement, validList rs = true →
      (marshalList rs).bind unmarshalList = .ok rs
  | [], _ => by simp [marshalList, Except.bind, unmarshalList]
  | r :: rs, h => by
      have hv : validAuthenticationRequirement r = true ∧ validList rs = true := by
        simpa [validList, Bool.and_eq_true] using h
      have ih1 := marshal_unmarshal_node r hv.1
      have ih2 := marshal_unmarshal_list rs hv.2
      rcases h1 : marshalAuthenticationRequirement r with e | ra
      · rw [h1] at ih1; simp [Except.bind] at ih1
      · rcases h2 : marshalList rs with e | la
        · rw [h2] at ih2; simp [Except.bind] at ih2
        · rw [h1] at ih1
          rw [h2] at ih2
          simp only [Except.bind] at ih1 ih2
          simp [marshalList, h1, h2, Except.bind, unmarshalList, ih1, ih2,
            except_ok_bind, except_error_bind]
end

/-! ## Claims -/

/-- C3: `AuthenticationRequirement.IsEmpty` is true iff the node is not
disabled and its recursive content is empty; a disabled node is never
empty. -/
theorem claim_C3 (a : AuthenticationRequirement) :
    (a.IsEmpty = true ↔ (a.Disabled = false ∧ isEmpty a = true)) ∧
    (a.Disabled = true → a.IsEmpty = false) := by
  cases a with
  | mk d r =>
    cases d <;>
      simp [AuthenticationRequirement.IsEmpty, AuthenticationRequirement.Disabled]

/-- C3 witness: a disabled node with a JWT leaf is not empty. -/
theorem claim_C3_witness :
    AuthenticationRequirement.IsEmpty (.mk true (some (.jwt jwtFoo))) = false :=
  (claim_C3 _).2 rfl

/-- C4: the recursive helper `isEmpty` is true on an `AnyOf`/`AllOf` node iff
every child is empty (vacuously for no children), unconditionally false on a
JWT leaf; a tree with a JWT leaf at any depth is not empty. -/
theorem claim_C4 (d : Bool) (rs : List AuthenticationRequirement)
    (j : JWTAuthentication) :
    (isEmpty (.mk d (some (.anyOf rs))) = true ↔ ∀ r ∈ rs, isEmpty r = true) ∧
    (isEmpty (.mk d (some (.allOf rs))) = true ↔ ∀ r ∈ rs, isEmpty r = true) ∧
    isEmpty (.mk d (some (.jwt j))) = false ∧
    isEmpty (.mk d (some (.anyOf ([] : List AuthenticationRequirement)))) = true ∧
    isEmpty (.mk d (some (.allOf ([] : List AuthenticationRequirement)))) = true ∧
    (∀ a : AuthenticationRequirement, a.jwtAuthentications ≠ [] → isEmpty a = false) := by
  refine ⟨?_, ?_, ?_, ?_, ?_, ?_⟩
  · simpa [isEmpty, isEmptyRequirements] using isEmptyList_eq_true_iff rs
  · simpa [isEmpty, isEmptyRequirements] using isEmptyList_eq_true_iff rs
  · simp [isEmpty, isEmptyRequirements]
  · simp [isEmpty, isEmptyRequirements, isEmptyList]
  · simp [isEmpty, isEmptyRequirements, isEmptyList]
  · intro a h
    cases hE : isEmpty a with
    | false => rfl
    | true => exact absurd (jwtAuths_nil_of_isEmpty a hE) h

/-- C4 witness: a deeply nested JWT leaf makes the tree non-empty. -/
theorem claim_C4_witness :
    isEmpty (.mk false (some (.allOf
      [.mk false (some (.anyOf [authNone, .mk false (some (.jwt jwtFoo))]))]))) = false :=
  (claim_C4 false [] jwtFoo).2.2.2.2.2 _ (by decide)

/-- C9: `ConsumerAuthorization.isEmpty` is true iff not disabled and without
bindings; a disabled value is never empty. -/
theorem claim_C9 (c : ConsumerAuthorization) :
    (c.isEmpty = true ↔ (c.Disabled = false ∧ c.In = [])) ∧
    (c.Disabled = true → c.isEmpty = false) := by
  obtain ⟨d, ins⟩ := c
  cases d <;> cases ins <;> simp [ConsumerAuthorization.isEmpty]

/-- C9 witness: a disabled consumer authorization without bindings is not
empty. -/
theorem claim_C9_witness :
    ConsumerAuthorization.isEmpty { Disabled := true, In := [] } = false :=
  (claim_C9 _).2 rfl

/-- C10: on a node whose `Requirements` field holds none of the three known
variants — absent, or a foreign implementation of the interface — the
recursive helper returns true, so `IsEmpty` is true exactly when the node is
not disabled. -/
theorem claim_C10 (d : Bool) (tag : String) :
    isEmpty (.mk d none) = true ∧
    isEmpty (.mk d (some (.other tag))) = true ∧
    (AuthenticationRequirement.IsEmpty (.mk d none) = true ↔ d = false) ∧
    (AuthenticationRequirement.IsEmpty (.mk d (some (.other tag))) = true ↔ d = false) := by
  cases d <;>
    simp [isEmpty, isEmptyRequirements, AuthenticationRequirement.IsEmpty,
      AuthenticationRequirement.Disabled]

/-- C10 witness: concrete unknown-variant and unset nodes. -/
theorem claim_C10_witness :
    isEmpty (.mk true (some (.other "custom"))) = true ∧
    AuthenticationRequirement.IsEmpty (.mk false none) = true :=
  ⟨(claim_C10 true "custom").2.1, (claim_C10 false "custom").2.2.1.mpr rfl⟩

/-- C1 counterexample: on a two-API specification with JWT requirements both
at API level and at operation level, the accessor returns the first API's
leaves, then its operations' leaves, then the second API's leaves — not all
API lists followed by all operation lists as claimed. -/
theorem claim_C1_counterexample :
    JWTAuthentications specTwoAPIs ≠ JWTAuthenticationsSpecOrder specTwoAPIs := by
  decide

/-- C2: decoding a non-disabled record with zero or more than one of the
keys jwt/any/all present fails with exactly "precisely one of jwt, any or
all should be set"; on a disabled record the exactly-one check is skipped
and decoding succeeds (its child lists decoding as usual). -/
theorem claim_C2 (d : Bool) (jwt : Option JWTAuthentication)
    (anyKey allKey : Option (List RawAuthenticationRequirement)) :
    (d = false → (RawAuthenticationRequirement.mk d jwt anyKey allKey).keyCount ≠ 1 →
      unmarshalAuthenticationRequirement (.mk d jwt anyKey allKey) =
        .error "precisely one of jwt, any or all should be set") ∧
    (d = true → (RawAuthenticationRequirement.mk d jwt anyKey allKey).childrenOk = true →
      exceptOk (unmarshalAuthenticationRequirement (.mk d jwt anyKey allKey)) = true) := by
  constructor
  · intro hd hk
    subst hd
    rcases jwt with _ | j <;> rcases anyKey with _ | rsA <;> rcases allKey with _ | rsL <;>
      simp [RawAuthenticationRequirement.keyCount] at hk <;>
      simp [unmarshalAuthenticationRequirement, RawAuthenticationRequirement.keyCount]
  · intro hd hok
    subst hd
    rcases jwt with _ | j
    · rcases anyKey with _ | rsA
      · rcases allKey with _ | rsL
        · simp [unmarshalAuthenticationRequirement, exceptOk]
        · simp only [RawAuthenticationRequirement.childrenOk, Bool.and_eq_true] at hok
          rcases hu : unmarshalList rsL with e | l
          · rw [hu] at hok
            simp [exceptOk] at hok
          · simp [unmarshalAuthenticationRequirement, hu, Except.map, exceptOk]
      · simp only [RawAuthenticationRequirement.childrenOk, Bool.and_eq_true] at hok
        rcases hu : unmarshalList rsA with e | l
        · rw [hu] at hok
          simp [exceptOk] at hok
        · simp [unmarshalAuthenticationRequirement, hu, Except.map, exceptOk]
    · simp [unmarshalAuthenticationRequirement, exceptOk]

/-- C2 witness: a record with both jwt and any present fails when enabled
and decodes when disabled. -/
theorem claim_C2_witness :
    unmarshalAuthenticationRequirement (.mk false (some jwtFoo) (some []) none) =
      .error "precisely one of jwt, any or all should be set" ∧
    exceptOk (unmarshalAuthenticationRequirement
      (.mk true (some jwtFoo) (some []) none)) = true :=
  ⟨(claim_C2 false (some jwtFoo) (some []) none).1 rfl (by decide),
   (claim_C2 true (some jwtFoo) (some []) none).2 rfl (by decide)⟩

/-- C5: encoding then decoding any valid `AuthenticationRequirement`
(including nested any-of/all-of combinations over JWT leaves) yields a
structurally equal value. -/
theorem claim_C5 (r : AuthenticationRequirement)
    (h : validAuthenticationRequirement r = true) :
    (marshalAuthenticationRequirement r).bind unmarshalAuthenticationRequirement =
      .ok r :=
  marshal_unmarshal_node r h

/-- C5 witness: a concrete nested any-of/all-of/jwt value round-trips. -/
theorem claim_C5_witness :
    (marshalAuthenticationRequirement authNested).bind
      unmarshalAuthenticationRequirement = .ok authNested :=
  claim_C5 authNested (by decide)

/-- C1 (amended): the aggregate accessor returns, for each API in
specification order, that API's flattened depth-first JWT-requirement list
followed by each of its operations' flattened lists, concatenated across the
whole specification. -/
theorem claim_C1 (e : EnvironmentSpec) :
    JWTAuthentications e =
      (e.APIs.map fun api =>
        api.jwtAuthentications ++
          (api.Operations.map APIOperation.jwtAuthentications).flatten).flatten := by
  unfold JWTAuthentications
  simpa using jwtAuths_foldl e.APIs []

/-- C6: successfully building the extension caches exactly one compiled
template per distinct non-empty raw template string across all positions,
and `GetTemplate` returns the cached compiled form for each of them. -/
theorem claim_C6 (spec : EnvironmentSpec) (ext : EnvironmentSpecExt)
    (h : NewEnvironmentSpecExt spec = .ok ext) :
    ext.compiledTemplates.length =
      ((templateStrings spec).filter (· ≠ "")).dedup.length ∧
    ∀ s ∈ templateStrings spec, s ≠ "" →
      ∃ t, Parse s = .ok t ∧ ext.GetTemplate s = some t := by
  obtain ⟨hc, -, -⟩ := NewEnvironmentSpecExt_ok spec ext h
  obtain ⟨k1, k2, k3⟩ := cacheFold_ok_props (templateStrings spec) []
    ext.compiledTemplates hc (by intro k v hv; simp [List.lookup] at hv)
  constructor
  · have hnodup : (mapKeys ext.compiledTemplates).Nodup := by
      rw [k1]
      exact foldl_insKey_nodup _ _ (by simp [mapKeys])
    have hfin : (mapKeys ext.compiledTemplates).toFinset =
        ((templateStrings spec).filter (· ≠ "")).toFinset := by
      rw [k1, foldl_insKey_toFinset]
      simp [mapKeys]
    have hlen : ext.compiledTemplates.length = (mapKeys ext.compiledTemplates).length := by
      simp [mapKeys]
    rw [hlen, ← List.toFinset_card_of_nodup hnodup, hfin, List.card_toFinset]
  · intro s hs hne
    obtain ⟨t, hp⟩ := k3 s hs hne
    have hmem : s ∈ mapKeys ext.compiledTemplates := by
      have hsf : s ∈ (mapKeys ext.compiledTemplates).toFinset := by
        rw [k1, foldl_insKey_toFinset]
        have hsl : s ∈ (templateStrings spec).filter (· ≠ "") :=
          List.mem_filter.mpr ⟨hs, by simp [hne]⟩
        have h0 : mapKeys ([] : TemplateCache) = [] := rfl
        rw [h0]
        simp only [List.toFinset_nil, Finset.empty_union]
        exact List.mem_toFinset.mpr hsl
      simpa using hsf
    obtain ⟨v, hv⟩ := lookup_of_mem_mapKeys s _ hmem
    have hvv := k2 s v hv
    refine ⟨t, hp, ?_⟩
    simp [EnvironmentSpecExt.GetTemplate, hv, hvv, hp, Except.toOption]

/-- C6 witness: the sample specification has four distinct non-empty
template strings and its cache has four entries. -/
theorem claim_C6_witness : extTwoAPIs.compiledTemplates.length = 4 :=
  (claim_C6 specTwoAPIs extTwoAPIs rfl).1.trans (by decide)

/-- C7: an operation without HTTP matches is inserted under exactly
`[API ID, "*", "*"]`, and a match with the any-method token is inserted
with the method segment replaced by the wildcard. -/
theorem claim_C7 (spec : EnvironmentSpec) (ext : EnvironmentSpecExt)
    (h : NewEnvironmentSpecExt spec = .ok ext)
    (api : APISpec) (hapi : api ∈ spec.APIs)
    (op : APIOperation) (hop : op ∈ api.Operations) :
    (op.HTTPMatches = [] →
      ([api.ID, wildcard, wildcard], (op, (none : Option Template))) ∈ ext.opPathTree) ∧
    (∀ m ∈ op.HTTPMatches, m.Method = anyMethod →
      ∃ t : Option Template,
        (api.ID :: wildcard :: m.PathTemplate.splitOn "/", (op, t)) ∈ ext.opPathTree) := by
  obtain ⟨-, htree, -⟩ := NewEnvironmentSpecExt_ok spec ext h
  have hsub : ∀ x ∈ opEntries api.ID op, x ∈ ext.opPathTree := by
    rw [htree]
    intro x hx
    exact List.mem_flatten.mpr ⟨_, List.mem_map_of_mem _ hapi,
      List.mem_flatten.mpr ⟨_, List.mem_map_of_mem _ hop, hx⟩⟩
  constructor
  · intro hnil
    apply hsub
    simp [opEntries, hnil]
  · intro m hm hmethod
    refine ⟨parsedTemplate m.PathTemplate, ?_⟩
    apply hsub
    have hne : op.HTTPMatches.isEmpty = false := by
      cases hML : op.HTTPMatches with
      | nil => rw [hML] at hm; simp at hm
      | cons a l => simp
    have hentry : matchEntry api.ID op m =
        (api.ID :: wildcard :: m.PathTemplate.splitOn "/",
          (op, parsedTemplate m.PathTemplate)) := by
      simp [matchEntry, hmethod]
    rw [show opEntries api.ID op = op.HTTPMatches.map (matchEntry api.ID op) from by
      simp [opEntries, hne], ← hentry]
    exact List.mem_map_of_mem _ hm

/-- C7 witness: in the sample specification, the no-match operation sits
under the double wildcard and the any-method match under the wildcard
method. -/
theorem claim_C7_witness :
    (["api1", "*", "*"] : List String) ∈ extTwoAPIs.opPathTree.map Prod.fst ∧
    (("api1" :: "*" :: "/petstore".splitOn "/") : List String) ∈
      extTwoAPIs.opPathTree.map Prod.fst := by
  have h := claim_C7 specTwoAPIs extTwoAPIs rfl apiOne (by simp [specTwoAPIs])
    opWithJwt (by simp [apiOne])
  have h2 := claim_C7 specTwoAPIs extTwoAPIs rfl apiOne (by simp [specTwoAPIs])
    opPetstore (by simp [apiOne])
  constructor
  · exact List.mem_map_of_mem _ (h.1 rfl)
  · obtain ⟨t, ht⟩ := h2.2 { PathTemplate := "/petstore", Method := anyMethod }
      (by simp [opPetstore]) rfl
    exact List.mem_map_of_mem Prod.fst ht

/-- C8: the precomputed CORS must-vary flag of an API is true iff the
literal origins contain the universal wildcard, or an origin regex is
present, or more than one literal origin is configured. -/
theorem claim_C8 (spec : EnvironmentSpec) (ext : EnvironmentSpecExt)
    (h : NewEnvironmentSpecExt spec = .ok ext)
    (hnd : (spec.APIs.map APISpec.ID).Nodup)
    (api : APISpec) (hapi : api ∈ spec.APIs) :
    ∃ b, ext.corsVary.lookup api.ID = some b ∧
      (b = true ↔ (wildcard ∈ api.Cors.AllowOrigins ∨
        api.Cors.AllowOriginsRegexes ≠ [] ∨ 1 < api.Cors.AllowOrigins.length)) := by
  obtain ⟨-, -, hv⟩ := NewEnvironmentSpecExt_ok spec ext h
  refine ⟨corsVaryValue api, ?_, corsVaryValue_iff api⟩
  rw [hv]
  exact lookup_corsVary_foldl api spec.APIs [] hnd hapi

/-- C8 witness: the wildcard-origin API of the sample specification must
vary. -/
theorem claim_C8_witness : extTwoAPIs.corsVary.lookup "api1" = some true := by
  obtain ⟨b, hb, hiff⟩ := claim_C8 specTwoAPIs extTwoAPIs rfl (by decide) apiOne
    (by simp [specTwoAPIs])
  have hbt : b = true := hiff.mpr (Or.inl (by simp [apiOne, wildcard]))
  rw [hbt] at hb
  simpa [apiOne] using hb

end ApigeeConfig
